import Mathlib

/-!
Verification of the cachix-action CI action (src/main.ts).

The TypeScript program has two phases that run as separate process
invocations of the same script: a pre-job phase (the function setup) and a
post-job phase (the function upload).  Both phases perform a straight-line
sequence of observable effects (subprocess invocations, file writes,
environment exports, log messages), where most effects are awaited and can
fail; a failure aborts the rest of the phase body and is converted by the
surrounding try/catch into a setFailed annotation.  One effect in setup, the
fs.chmod call on the generated post-build hook, is NOT awaited: its promise
rejection escapes the try/catch (an unhandled promise rejection).

We embed each phase as a pure function from the inputs and an abstract world
(the values the OS returns: temp-dir names, pids, resolved paths) to a list
of steps, and interpret step lists against a failure oracle that says which
attempted effect fails.  The interpreter yields the executed trace of
effects, the thrown (caught) error if any, and the pending floating
rejection of the un-awaited chmod if any.
-/

namespace Cachix

/-- Model of the JavaScript String.prototype.split with a one-character
separator, on the underlying character list.  Empty segments are kept and
the empty string splits to a single empty segment, as in JavaScript. -/
def jsSplitAux (sep : Char) : List Char → List Char → List String
  | [], acc => [String.mk acc.reverse]
  | c :: cs, acc =>
    if c = sep then String.mk acc.reverse :: jsSplitAux sep cs []
    else jsSplitAux sep cs (c :: acc)

/-- Model of the JavaScript String.prototype.split with a one-character
separator string. -/
def jsSplit (sep : Char) (s : String) : List String :=
  jsSplitAux sep s.data []

/-- Characters stripped by the JavaScript String.prototype.trim (the ASCII
whitespace and line-terminator characters; the rarely used non-ASCII space
code points are irrelevant to the inputs considered here). -/
def isJsWhitespace (c : Char) : Bool :=
  c = ' ' || c = '\t' || c = '\n' || c = '\r' || c = '\x0b' || c = '\x0c'

/-- Model of the JavaScript String.prototype.trim: strip leading and
trailing whitespace. -/
def jsTrim (s : String) : String :=
  String.mk (((s.data.dropWhile isJsWhitespace).reverse.dropWhile isJsWhitespace).reverse)

/-- The action inputs read by core.getInput at the top of main.ts.  Each is
a string; absent optional inputs are the empty string.  The installCommand
field holds the resolved value (the user value, or the default install
command when the user value is empty, as computed by the JS || operator). -/
structure Inputs where
  name : String
  extraPullNames : String
  signingKey : String
  authToken : String
  skipPush : String
  pathsToPush : String
  pushFilter : String
  cachixArgs : String
  installCommand : String
  skipAddingSubstituter : String
  useDaemon : String
deriving Repr, DecidableEq

/-- The ambient values the operating system and runtime provide to a run:
results of which.sync, environment conventions, the random mkdtemp suffix,
the spawned pid, and the parseInt of the pid file read back in upload. -/
structure World where
  cachixOnPath : Bool
  runnerTemp : String
  tmpdir : String
  mkdtempSuffix : String
  daemonPid : Option Nat
  cachixPath : String
  home : String
  dirname : String
  pidValue : Int
deriving Repr, DecidableEq

/-- One observable effect of the program. -/
inductive Action where
  | exec (cmd : String) (args : List String)
  | info (msg : String)
  | debug (msg : String)
  | startGroup (title : String)
  | endGroup
  | exportVariable (key value : String)
  | mkdtemp (base : String)
  | openAppend (path : String)
  | spawnDetached (cmd : String) (args : List String)
  | writeFile (path content : String)
  | chmod (path : String) (mode : Nat)
  | mkdir (path : String)
  | writeSync (path content : String)
  | unref
  | readFile (path : String)
  | tailStart (path : String)
  | tailStop (path : String)
  | kill (pid : Int) (signal : String)
  | setFailed (msg : String)
deriving Repr, DecidableEq

/-- A step of a phase body: emit is an effect that cannot reject (or whose
rejection the program swallows), att is an awaited effect whose failure
throws into the phase try/catch, float is the un-awaited chmod whose
rejection escapes the try/catch. -/
inductive Step where
  | emit (a : Action)
  | att (a : Action)
  | float (a : Action)
deriving Repr, DecidableEq

/-- The action performed by a step. -/
def actionOf : Step → Action
  | Step.emit a => a
  | Step.att a => a
  | Step.float a => a

/-- Result of interpreting a step list: the executed effect trace, the error
thrown into the phase try/catch (if any), and the pending un-awaited
rejection (if any). -/
structure RunOut where
  trace : List Action
  thrown : Option String
  floating : Option String
deriving Repr, DecidableEq

/-- Interpret a step list against a failure oracle.  An awaited effect that
fails is still attempted (it appears in the trace) but aborts every later
step; a floating effect that fails records a pending rejection and
execution continues. -/
def runSteps (fail : Action → Option String) : List Step → RunOut
  | [] => { trace := [], thrown := none, floating := none }
  | Step.emit a :: rest =>
    let r := runSteps fail rest
    { r with trace := a :: r.trace }
  | Step.att a :: rest =>
    match fail a with
    | some m => { trace := [a], thrown := some m, floating := none }
    | none =>
      let r := runSteps fail rest
      { r with trace := a :: r.trace }
  | Step.float a :: rest =>
    let r := runSteps fail rest
    { trace := a :: r.trace, thrown := r.thrown,
      floating := (fail a).orElse (fun _ => r.floating) }

/-- The oracle of a run in which no effect fails. -/
def noFail : Action → Option String := fun _ => none

/-- The constant ENV_CACHIX_DAEMON_DIR of main.ts: the name of the
environment variable that hands the daemon directory from setup to upload. -/
def ENV_CACHIX_DAEMON_DIR : String := "CACHIX_DAEMON_DIR"

/-- The string interpolation of daemon.pid in the debug message: a missing
pid renders as the JavaScript text undefined. -/
def jsPidString : Option Nat → String
  | some p => toString p
  | none => "undefined"

/-- The temp directory chosen in daemon mode:
process.env[RUNNER_TEMP] || os.tmpdir().  An unset variable and an empty
one are both falsy in JavaScript, so both select os.tmpdir(). -/
def cachixTmpdir (w : World) : String :=
  if w.runnerTemp ≠ "" then w.runnerTemp else w.tmpdir

/-- The unique daemon directory returned by
fs.mkdtemp(path.join(tmpdir, "cachix-daemon-")): the requested base plus
the random suffix the OS appends. -/
def daemonDirOf (w : World) : String :=
  cachixTmpdir w ++ "/cachix-daemon-" ++ w.mkdtempSuffix

/-- The generated post-build hook script, exactly as the template literal of
main.ts renders it.  The backslash-newline pairs of the source are
JavaScript line continuations, so each collapses to nothing and the
following indentation remains.  Note the script sets IFS to the EMPTY
string (export IFS with two adjacent single quotes). -/
def postBuildHookScript (cachix daemonDir name : String) : String :=
  "\n      #!/bin/sh\n\n      set -eux\n      set -f #disable globbing\n      export IFS=\x27\x27\n\n      exec "
    ++ cachix ++ " daemon push         --socket " ++ daemonDir
    ++ "/daemon.sock         " ++ name ++ " $OUT_PATHS\n     "

/-- The line appended to the user nix.conf, exactly as the template literal
of main.ts renders it. -/
def nixConfAppend (postBuildHookPath : String) : String :=
  "\n      post-build-hook = " ++ postBuildHookPath ++ "\n      "

/-- The daemon-mode branch of setup (lines 68 to 123 of main.ts): make the
daemon directory, open its log, spawn the detached daemon on the socket
inside it, record the pid when observable, resolve the cachix executable,
write the hook script, chmod it WITHOUT awaiting, register the hook in the
user nix.conf, and export the daemon directory for the post-job phase. -/
def daemonSetupSteps (inp : Inputs) (w : World) : List Step :=
  let daemonDir := daemonDirOf w
  [Step.att (Action.mkdtemp (cachixTmpdir w ++ "/cachix-daemon-")),
   Step.att (Action.openAppend (daemonDir ++ "/daemon.log")),
   Step.emit (Action.spawnDetached "cachix"
     ["daemon", "run", "--socket", daemonDir ++ "/daemon.sock"])] ++
  (match w.daemonPid with
   | some pid => [Step.att (Action.writeFile (daemonDir ++ "/daemon.pid") (toString pid))]
   | none => []) ++
  [Step.emit (Action.debug ("Found cachix executable: " ++ w.cachixPath)),
   Step.att (Action.writeFile (daemonDir ++ "/cachix-post-build-hook.sh")
     (postBuildHookScript w.cachixPath daemonDir inp.name)),
   Step.float (Action.chmod (daemonDir ++ "/cachix-post-build-hook.sh") 493),
   Step.att (Action.mkdir (w.home ++ "/.config/nix")),
   Step.att (Action.openAppend (w.home ++ "/.config/nix/nix.conf")),
   Step.att (Action.writeSync (w.home ++ "/.config/nix/nix.conf")
     (nixConfAppend (daemonDir ++ "/cachix-post-build-hook.sh"))),
   Step.emit (Action.exportVariable ENV_CACHIX_DAEMON_DIR daemonDir),
   Step.emit (Action.debug ("Cachix daemon started with pid " ++ jsPidString w.daemonPid)),
   Step.emit Action.unref]

/-- The body of the extra-caches loop (lines 54 to 60 of main.ts): split the
input on commas and issue one cachix use call per element, trimmed. -/
def extraUseSteps (extraPullNames : String) : List Step :=
  (jsSplit ',' extraPullNames).map
    (fun itemName => Step.att (Action.exec "cachix" ["use", jsTrim itemName]))

/-- The steps of setup before the extra-caches block: conditional install,
version check, conditional authtoken registration, and the primary
substituter registration unless skipped. -/
def setupStepsBeforeExtras (inp : Inputs) (w : World) : List Step :=
  (if w.cachixOnPath then []
   else
    [Step.emit (Action.startGroup "Cachix: installing"),
     Step.att (Action.exec "bash" ["-c", inp.installCommand]),
     Step.emit Action.endGroup]) ++
  [Step.emit (Action.startGroup "Cachix: checking version"),
   Step.att (Action.exec "cachix" ["--version"]),
   Step.emit Action.endGroup] ++
  (if inp.authToken ≠ "" then
    [Step.att (Action.exec "cachix" ["authtoken", inp.authToken])]
   else []) ++
  (if inp.skipAddingSubstituter = "true" then
    [Step.emit (Action.info "Not adding Cachix cache to substituters as skipAddingSubstituter is set to true")]
   else
    [Step.emit (Action.startGroup ("Cachix: using cache " ++ inp.name)),
     Step.att (Action.exec "cachix" ["use", inp.name]),
     Step.emit Action.endGroup])

/-- The extra-caches block of setup, entered only for a non-empty
extraPullNames input. -/
def extrasSegment (inp : Inputs) : List Step :=
  if inp.extraPullNames ≠ "" then
    Step.emit (Action.startGroup ("Cachix: using extra caches " ++ inp.extraPullNames)) ::
      extraUseSteps inp.extraPullNames ++ [Step.emit Action.endGroup]
  else []

/-- The steps of setup after the extra-caches block: conditional signing-key
export, then either the daemon branch or the direct-mode store snapshot. -/
def setupStepsAfterExtras (inp : Inputs) (w : World) : List Step :=
  (if inp.signingKey ≠ "" then
    [Step.emit (Action.exportVariable "CACHIX_SIGNING_KEY" inp.signingKey)]
   else []) ++
  (if inp.useDaemon = "true" then daemonSetupSteps inp w
   else
    [Step.att (Action.exec "sh"
      ["-c", w.dirname ++ "/list-nix-store.sh > /tmp/store-path-pre-build"])])

/-- The full step list of the body of setup, in source order. -/
def setupSteps (inp : Inputs) (w : World) : List Step :=
  setupStepsBeforeExtras inp w ++ extrasSegment inp ++ setupStepsAfterExtras inp w

/-- Overall outcome of a phase: completed normally, failed but caught (a
setFailed job annotation, no crash), or crashed with an unhandled
rejection. -/
inductive Outcome where
  | normal
  | caughtFailure
  | crash (msg : String)
deriving Repr, DecidableEq

/-- A phase run: the trace of effects it executed (including the setFailed
annotation the catch block appends) and its overall outcome. -/
structure RunResult where
  trace : List Action
  outcome : Outcome
deriving Repr, DecidableEq

/-- The trace after the catch block: when the body threw, the catch appends
the setFailed annotation carrying the error message. -/
def catchTrace (r : RunOut) : List Action :=
  match r.thrown with
  | some m => r.trace ++ [Action.setFailed ("Action failed with error: " ++ m)]
  | none => r.trace

/-- Outcome of the setup phase: an un-awaited rejection crashes the process;
a thrown error is caught and only fails the job. -/
def setupOutcome (r : RunOut) : Outcome :=
  match r.floating with
  | some m => Outcome.crash m
  | none =>
    match r.thrown with
    | some _ => Outcome.caughtFailure
    | none => Outcome.normal

/-- Outcome of the upload phase: a thrown error is caught and only fails
the job (upload has no un-awaited effect). -/
def uploadOutcome (r : RunOut) : Outcome :=
  match r.thrown with
  | some _ => Outcome.caughtFailure
  | none => Outcome.normal

/-- Run the setup phase: interpret its body, append the setFailed
annotation of the catch block when the body threw, and crash when the
un-awaited chmod rejected. -/
def runSetup (inp : Inputs) (w : World) (fail : Action → Option String) : RunResult :=
  { trace := catchTrace (runSteps fail (setupSteps inp w)),
    outcome := setupOutcome (runSteps fail (setupSteps inp w)) }

/-- The effect trace of a setup run in which no effect fails. -/
def setupTrace (inp : Inputs) (w : World) : List Action :=
  (runSetup inp w noFail).trace

/-- The body of the try block of upload (lines 133 to 165 of main.ts).  The
env argument is the process environment of the post-job invocation; a
missing daemon-directory variable interpolates as the JavaScript text
undefined.  The process.kill is wrapped in its own try with an empty
catch, so its failure is swallowed: it is an emit step.  The daemon
directory read from the environment interpolates as the JavaScript text
undefined when the variable is missing (uploadDaemonDir). -/
def uploadDaemonDir (env : String → Option String) : String :=
  match env ENV_CACHIX_DAEMON_DIR with
  | some d => d
  | none => "undefined"

def uploadInnerSteps (inp : Inputs) (env : String → Option String) (w : World) : List Step :=
  if inp.skipPush = "true" then
    [Step.emit (Action.info "Pushing is disabled as skipPush is set to true")]
  else if inp.signingKey ≠ "" ∨ inp.authToken ≠ "" then
    if inp.useDaemon = "true" then
      [Step.att (Action.readFile (uploadDaemonDir env ++ "/daemon.pid")),
       Step.emit (Action.debug ("Found Cachix daemon with pid " ++ toString w.pidValue)),
       Step.emit (Action.tailStart (uploadDaemonDir env ++ "/daemon.log")),
       Step.emit (Action.debug ("Sending SIGINT to Cachix daemon with pid " ++ toString w.pidValue)),
       Step.emit (Action.kill w.pidValue "SIGINT"),
       Step.emit (Action.debug "Waiting for Cachix daemon to exit..."),
       Step.emit (Action.tailStop (uploadDaemonDir env ++ "/daemon.log"))]
    else
      [Step.att (Action.exec (w.dirname ++ "/push-paths.sh")
        ["cachix", inp.cachixArgs, inp.name, inp.pathsToPush, inp.pushFilter])]
  else
    [Step.emit (Action.info "Pushing is disabled as signingKey nor authToken are set (or are empty?) in your YAML file.")]

/-- Run the upload phase: the startGroup and endGroup calls sit outside the
try/catch, the catch appends the setFailed annotation. -/
def runUpload (inp : Inputs) (env : String → Option String) (w : World)
    (fail : Action → Option String) : RunResult :=
  { trace :=
      Action.startGroup "Cachix: push" ::
        catchTrace (runSteps fail (uploadInnerSteps inp env w)) ++ [Action.endGroup],
    outcome := uploadOutcome (runSteps fail (uploadInnerSteps inp env w)) }

/-- The effect trace of an upload run in which no effect fails. -/
def uploadTrace (inp : Inputs) (env : String → Option String) (w : World) : List Action :=
  (runUpload inp env w noFail).trace

/-- A run in which no effect fails executes every step, throws nothing and
leaves no pending rejection. -/
theorem runSteps_noFail (steps : List Step) :
    runSteps noFail steps =
      { trace := steps.map actionOf, thrown := none, floating := none } := by
  induction steps with
  | nil => rfl
  | cons s rest ih =>
    cases s <;> simp [runSteps, actionOf, noFail, ih, Option.orElse]

/-- The executed trace is always a prefix of the program-order action list:
once a step fails, no later step runs. -/
theorem runSteps_trace_take (fail : Action → Option String) (steps : List Step) :
    ∃ n, (runSteps fail steps).trace = (steps.map actionOf).take n := by
  induction steps with
  | nil => exact ⟨0, rfl⟩
  | cons s rest ih =>
    obtain ⟨n, hn⟩ := ih
    cases s with
    | emit a => exact ⟨n + 1, by simp [runSteps, hn, actionOf]⟩
    | att a =>
      cases h : fail a with
      | some m => exact ⟨1, by simp [runSteps, h, actionOf]⟩
      | none => exact ⟨n + 1, by simp [runSteps, h, hn, actionOf]⟩
    | float a => exact ⟨n + 1, by simp [runSteps, hn, actionOf]⟩

/-- Every executed action is an action of the program. -/
theorem runSteps_trace_subset (fail : Action → Option String) (steps : List Step) :
    ∀ a ∈ (runSteps fail steps).trace, a ∈ steps.map actionOf := by
  obtain ⟨n, hn⟩ := runSteps_trace_take fail steps
  intro a ha
  rw [hn] at ha
  exact (List.take_sublist n _).subset ha

/-- When the run throws, the last executed action is the one that failed:
everything after the failing call is aborted. -/
theorem runSteps_thrown_last (fail : Action → Option String) (steps : List Step)
    (m : String) (h : (runSteps fail steps).thrown = some m) :
    ∃ a, (runSteps fail steps).trace.getLast? = some a ∧ fail a = some m := by
  induction steps with
  | nil => simp [runSteps] at h
  | cons s rest ih =>
    cases s with
    | emit a =>
      simp only [runSteps] at h ⊢
      obtain ⟨b, hb, hfb⟩ := ih h
      refine ⟨b, ?_, hfb⟩
      cases htr : (runSteps fail rest).trace with
      | nil => rw [htr] at hb; simp at hb
      | cons x xs => rw [htr] at hb; simpa [List.getLast?_cons_cons] using hb
    | att a =>
      cases hf : fail a with
      | some m2 =>
        simp only [runSteps, hf] at h ⊢
        obtain rfl : m2 = m := by simpa using h
        exact ⟨a, by simp, hf⟩
      | none =>
        simp only [runSteps, hf] at h ⊢
        obtain ⟨b, hb, hfb⟩ := ih h
        refine ⟨b, ?_, hfb⟩
        cases htr : (runSteps fail rest).trace with
        | nil => rw [htr] at hb; simp at hb
        | cons x xs => rw [htr] at hb; simpa [List.getLast?_cons_cons] using hb
    | float a =>
      simp only [runSteps] at h ⊢
      obtain ⟨b, hb, hfb⟩ := ih h
      refine ⟨b, ?_, hfb⟩
      cases htr : (runSteps fail rest).trace with
      | nil => rw [htr] at hb; simp at hb
      | cons x xs => rw [htr] at hb; simpa [List.getLast?_cons_cons] using hb

/-- Cross-check of the embedding against a hand-traced run of main.ts:
direct mode, auth token and signing key set, two extra caches. -/
theorem setupTrace_direct_mode_example :
    setupTrace
      { name := "my-cache", extraPullNames := "a, b", signingKey := "sk",
        authToken := "tok", skipPush := "", pathsToPush := "", pushFilter := "",
        cachixArgs := "", installCommand := "inst", skipAddingSubstituter := "",
        useDaemon := "" }
      { cachixOnPath := true, runnerTemp := "/rt", tmpdir := "/tmp",
        mkdtempSuffix := "XYZ", daemonPid := some 7, cachixPath := "/bin/cachix",
        home := "/home/u", dirname := "/dist", pidValue := 7 } =
    [Action.startGroup "Cachix: checking version",
     Action.exec "cachix" ["--version"],
     Action.endGroup,
     Action.exec "cachix" ["authtoken", "tok"],
     Action.startGroup "Cachix: using cache my-cache",
     Action.exec "cachix" ["use", "my-cache"],
     Action.endGroup,
     Action.startGroup "Cachix: using extra caches a, b",
     Action.exec "cachix" ["use", "a"],
     Action.exec "cachix" ["use", "b"],
     Action.endGroup,
     Action.exportVariable "CACHIX_SIGNING_KEY" "sk",
     Action.exec "sh" ["-c", "/dist/list-nix-store.sh > /tmp/store-path-pre-build"]] := by
  decide

/-- The first step of a phase body is always attempted: its action opens the
executed trace. -/
theorem runSteps_trace_cons (fail : Action → Option String) (s : Step) (rest : List Step) :
    ∃ t, (runSteps fail (s :: rest)).trace = actionOf s :: t := by
  cases s with
  | emit a => exact ⟨_, rfl⟩
  | att a =>
    cases h : fail a with
    | some m => exact ⟨[], by simp [runSteps, h, actionOf]⟩
    | none =>
      exact ⟨(runSteps fail rest).trace, by simp [runSteps, h, actionOf]⟩
  | float a => exact ⟨_, rfl⟩

/-- The action of the first step always belongs to the executed trace. -/
theorem first_action_mem_runSteps (fail : Action → Option String) (s : Step)
    (rest : List Step) : actionOf s ∈ (runSteps fail (s :: rest)).trace := by
  obtain ⟨t, ht⟩ := runSteps_trace_cons fail s rest
  rw [ht]
  exact List.mem_cons_self _ _

/-- Actions of the push branch of upload: the direct push helper invocation,
or the daemon shutdown work (pid read, log tail, signal).  The informational
branches of upload produce none of these. -/
def isUploadPushAction : Action → Bool
  | Action.exec _ _ => true
  | Action.readFile _ => true
  | Action.kill _ _ => true
  | Action.tailStart _ => true
  | Action.tailStop _ => true
  | _ => false

/-- The setFailed job annotation. -/
def isSetFailed : Action → Bool
  | Action.setFailed _ => true
  | _ => false

/-- Actions exclusive to the daemon branch of setup. -/
def isDaemonSetupAction : Action → Bool
  | Action.mkdtemp _ => true
  | Action.spawnDetached _ _ => true
  | Action.chmod _ _ => true
  | Action.unref => true
  | _ => false

/-- The direct-mode store snapshot of setup: the only sh invocation of the
program. -/
def isDirectSetupAction : Action → Bool
  | Action.exec cmd _ => cmd == "sh"
  | _ => false

/-- Actions exclusive to the daemon branch of upload. -/
def isDaemonUploadAction : Action → Bool
  | Action.readFile _ => true
  | Action.tailStart _ => true
  | Action.tailStop _ => true
  | Action.kill _ _ => true
  | _ => false

/-- The direct-push helper invocation: the only exec of upload. -/
def isDirectUploadAction : Action → Bool
  | Action.exec _ _ => true
  | _ => false

/-- Membership in a caught trace is membership in the executed trace or the
setFailed annotation itself. -/
theorem mem_catchTrace (r : RunOut) (a : Action) (ha : a ∈ catchTrace r) :
    a ∈ r.trace ∨ ∃ m, a = Action.setFailed m := by
  unfold catchTrace at ha
  cases h : r.thrown with
  | none => rw [h] at ha; exact Or.inl ha
  | some m =>
    rw [h] at ha
    rcases List.mem_append.mp ha with h1 | h2
    · exact Or.inl h1
    · exact Or.inr ⟨_, by simpa using h2⟩

/-- Membership in a setup trace comes from the program steps or is the
catch-block setFailed annotation. -/
theorem mem_runSetup_trace (inp : Inputs) (w : World) (fail : Action → Option String)
    (a : Action) (ha : a ∈ (runSetup inp w fail).trace) :
    a ∈ (setupSteps inp w).map actionOf ∨ ∃ m, a = Action.setFailed m := by
  rcases mem_catchTrace _ a ha with h1 | h2
  · exact Or.inl (runSteps_trace_subset fail _ a h1)
  · exact Or.inr h2

/-- Membership in an upload trace comes from the inner program steps, the
group markers, or the catch-block setFailed annotation. -/
theorem mem_runUpload_trace (inp : Inputs) (env : String → Option String) (w : World)
    (fail : Action → Option String) (a : Action)
    (ha : a ∈ (runUpload inp env w fail).trace) :
    a = Action.startGroup "Cachix: push" ∨
      a ∈ (uploadInnerSteps inp env w).map actionOf ∨
      (∃ m, a = Action.setFailed m) ∨ a = Action.endGroup := by
  unfold runUpload at ha
  simp only [List.mem_cons, List.mem_append, List.mem_singleton] at ha
  rcases ha with (h1 | h1) | h1 | h1
  · exact Or.inl h1
  · rcases mem_catchTrace _ a h1 with h2 | h2
    · exact Or.inr (Or.inl (runSteps_trace_subset fail _ a h2))
    · exact Or.inr (Or.inr (Or.inl h2))
  · exact Or.inr (Or.inr (Or.inr h1))
  · exact absurd h1 (List.not_mem_nil a)

/-- In daemon mode, no action of setup is the direct-mode snapshot. -/
theorem setup_daemon_no_direct (inp : Inputs) (w : World) (h : inp.useDaemon = "true") :
    ((setupSteps inp w).map actionOf).all (fun a => !isDirectSetupAction a) = true := by
  by_cases h1 : w.cachixOnPath <;>
    by_cases h2 : inp.authToken = "" <;>
      by_cases h3 : inp.skipAddingSubstituter = "true" <;>
        by_cases h4 : inp.extraPullNames = "" <;>
          by_cases h5 : inp.signingKey = "" <;>
            rcases h6 : w.daemonPid with _ | pid <;>
              simp [setupSteps, setupStepsBeforeExtras, extrasSegment, setupStepsAfterExtras,
                daemonSetupSteps, extraUseSteps, isDirectSetupAction, actionOf,
                h, h1, h2, h3, h4, h5, h6, List.all_append, List.all_map, Function.comp]

/-- Outside daemon mode, no action of setup belongs to the daemon branch. -/
theorem setup_direct_no_daemon (inp : Inputs) (w : World) (h : ¬inp.useDaemon = "true") :
    ((setupSteps inp w).map actionOf).all (fun a => !isDaemonSetupAction a) = true := by
  by_cases h1 : w.cachixOnPath <;>
    by_cases h2 : inp.authToken = "" <;>
      by_cases h3 : inp.skipAddingSubstituter = "true" <;>
        by_cases h4 : inp.extraPullNames = "" <;>
          by_cases h5 : inp.signingKey = "" <;>
            simp [setupSteps, setupStepsBeforeExtras, extrasSegment, setupStepsAfterExtras,
              extraUseSteps, isDaemonSetupAction, actionOf,
              h, h1, h2, h3, h4, h5, List.all_append, List.all_map, Function.comp]

/-- In daemon mode, no action of upload is an exec. -/
theorem upload_daemon_no_direct (inp : Inputs) (env : String → Option String) (w : World)
    (h : inp.useDaemon = "true") :
    ((uploadInnerSteps inp env w).map actionOf).all (fun a => !isDirectUploadAction a) = true := by
  by_cases h1 : inp.skipPush = "true" <;>
    by_cases h2 : inp.signingKey = "" <;>
      by_cases h3 : inp.authToken = "" <;>
        simp [uploadInnerSteps, isDirectUploadAction, actionOf, h, h1, h2, h3]

/-- Outside daemon mode, no action of upload belongs to the daemon shutdown. -/
theorem upload_direct_no_daemon (inp : Inputs) (env : String → Option String) (w : World)
    (h : ¬inp.useDaemon = "true") :
    ((uploadInnerSteps inp env w).map actionOf).all (fun a => !isDaemonUploadAction a) = true := by
  by_cases h1 : inp.skipPush = "true" <;>
    by_cases h2 : inp.signingKey = "" <;>
      by_cases h3 : inp.authToken = "" <;>
        simp [uploadInnerSteps, isDaemonUploadAction, actionOf, h, h1, h2, h3]

/-- Every executed action of a phase body also appears in the trace after
the catch block. -/
theorem mem_catchTrace_of_mem (r : RunOut) (a : Action) (ha : a ∈ r.trace) :
    a ∈ catchTrace r := by
  unfold catchTrace
  cases h : r.thrown <;> simp [ha]

/-- Shape of the upload body in daemon mode with pushing enabled: it opens
with the pid-file read. -/
theorem uploadInnerSteps_daemon (inp : Inputs) (env : String → Option String) (w : World)
    (h1 : ¬inp.skipPush = "true") (hc : inp.signingKey ≠ "" ∨ inp.authToken ≠ "")
    (hd : inp.useDaemon = "true") :
    ∃ rest, uploadInnerSteps inp env w =
      Step.att (Action.readFile (uploadDaemonDir env ++ "/daemon.pid")) :: rest := by
  unfold uploadInnerSteps
  rw [if_neg h1, if_pos hc, if_pos hd]
  exact ⟨_, rfl⟩

/-- Shape of the upload body in direct mode with pushing enabled: the single
push-paths.sh invocation. -/
theorem uploadInnerSteps_direct (inp : Inputs) (env : String → Option String) (w : World)
    (h1 : ¬inp.skipPush = "true") (hc : inp.signingKey ≠ "" ∨ inp.authToken ≠ "")
    (hd : ¬inp.useDaemon = "true") :
    uploadInnerSteps inp env w =
      [Step.att (Action.exec (w.dirname ++ "/push-paths.sh")
        ["cachix", inp.cachixArgs, inp.name, inp.pathsToPush, inp.pushFilter])] := by
  unfold uploadInnerSteps
  rw [if_neg h1, if_pos hc, if_neg hd]

/-- C1: in the post-job upload step, a push is attempted if and only if
skipPush is not set to the string true and at least one of signingKey or
authToken is non-empty; when pushing is disabled or both credentials are
empty, upload emits exactly one informational message, attempts no push
work, and raises no job failure — for every failure oracle. -/
theorem C1_push_iff_not_skipped_and_credentialed (inp : Inputs)
    (env : String → Option String) (w : World) (fail : Action → Option String) :
    ((runUpload inp env w fail).trace.any isUploadPushAction = true ↔
      (inp.skipPush ≠ "true" ∧ (inp.signingKey ≠ "" ∨ inp.authToken ≠ ""))) ∧
    (inp.skipPush = "true" ∨ (inp.signingKey = "" ∧ inp.authToken = "") →
      ∃ msg, (runUpload inp env w fail).trace =
          [Action.startGroup "Cachix: push", Action.info msg, Action.endGroup] ∧
        (runUpload inp env w fail).outcome = Outcome.normal) := by
  by_cases h1 : inp.skipPush = "true"
  · refine ⟨?_, fun _ => ?_⟩
    · simp [runUpload, uploadInnerSteps, runSteps, catchTrace, h1, isUploadPushAction]
    · exact ⟨"Pushing is disabled as skipPush is set to true",
        by simp [runUpload, uploadInnerSteps, runSteps, catchTrace, uploadOutcome, h1]⟩
  · by_cases hc : inp.signingKey ≠ "" ∨ inp.authToken ≠ ""
    · constructor
      · refine ⟨fun _ => ⟨h1, hc⟩, fun _ => ?_⟩
        rw [List.any_eq_true]
        by_cases hd : inp.useDaemon = "true"
        · obtain ⟨rest, hrest⟩ := uploadInnerSteps_daemon inp env w h1 hc hd
          refine ⟨Action.readFile (uploadDaemonDir env ++ "/daemon.pid"), ?_,
            by simp [isUploadPushAction]⟩
          unfold runUpload
          refine List.mem_cons_of_mem _ (List.mem_append_left _
            (mem_catchTrace_of_mem _ _ ?_))
          rw [hrest]
          exact first_action_mem_runSteps fail _ _
        · have hrest := uploadInnerSteps_direct inp env w h1 hc hd
          refine ⟨Action.exec (w.dirname ++ "/push-paths.sh")
            ["cachix", inp.cachixArgs, inp.name, inp.pathsToPush, inp.pushFilter],
            ?_, by simp [isUploadPushAction]⟩
          unfold runUpload
          refine List.mem_cons_of_mem _ (List.mem_append_left _
            (mem_catchTrace_of_mem _ _ ?_))
          rw [hrest]
          exact first_action_mem_runSteps fail _ _
      · intro hdis
        rcases hdis with hdis | hdis
        · exact absurd hdis h1
        · rcases hc with hcc | hcc
          · exact absurd hdis.1 hcc
          · exact absurd hdis.2 hcc
    · push_neg at hc
      obtain ⟨hk, ht⟩ := hc
      refine ⟨?_, fun _ => ?_⟩
      · simp [runUpload, uploadInnerSteps, runSteps, catchTrace, h1, hk, ht, isUploadPushAction]
      · exact ⟨"Pushing is disabled as signingKey nor authToken are set (or are empty?) in your YAML file.",
          by simp [runUpload, uploadInnerSteps, runSteps, catchTrace, uploadOutcome, h1, hk, ht]⟩

/-- C6: for every value of the useDaemon flag and every failure oracle, a
single run never mixes the two code paths: the setup trace never contains
both a daemon-branch action and the direct-mode snapshot, and the upload
trace never contains both a daemon-shutdown action and the direct push
invocation. -/
theorem C6_daemon_and_direct_mutually_exclusive (inp : Inputs)
    (env : String → Option String) (w : World) (failS failU : Action → Option String) :
    (¬((runSetup inp w failS).trace.any isDaemonSetupAction = true ∧
       (runSetup inp w failS).trace.any isDirectSetupAction = true)) ∧
    (¬((runUpload inp env w failU).trace.any isDaemonUploadAction = true ∧
       (runUpload inp env w failU).trace.any isDirectUploadAction = true)) := by
  constructor
  · rintro ⟨hd, hs⟩
    rw [List.any_eq_true] at hd hs
    obtain ⟨a, ha, hpa⟩ := hd
    obtain ⟨b, hb, hpb⟩ := hs
    by_cases h : inp.useDaemon = "true"
    · have hall := List.all_eq_true.mp (setup_daemon_no_direct inp w h)
      rcases mem_runSetup_trace inp w failS b hb with h1 | ⟨m, rfl⟩
      · have hfalse := hall b h1
        rw [hpb] at hfalse
        simp at hfalse
      · simp [isDirectSetupAction] at hpb
    · have hall := List.all_eq_true.mp (setup_direct_no_daemon inp w h)
      rcases mem_runSetup_trace inp w failS a ha with h1 | ⟨m, rfl⟩
      · have hfalse := hall a h1
        rw [hpa] at hfalse
        simp at hfalse
      · simp [isDaemonSetupAction] at hpa
  · rintro ⟨hd, hs⟩
    rw [List.any_eq_true] at hd hs
    obtain ⟨a, ha, hpa⟩ := hd
    obtain ⟨b, hb, hpb⟩ := hs
    by_cases h : inp.useDaemon = "true"
    · have hall := List.all_eq_true.mp (upload_daemon_no_direct inp env w h)
      rcases mem_runUpload_trace inp env w failU b hb with rfl | h1 | ⟨m, rfl⟩ | rfl
      · simp [isDirectUploadAction] at hpb
      · have hfalse := hall b h1
        rw [hpb] at hfalse
        simp at hfalse
      · simp [isDirectUploadAction] at hpb
      · simp [isDirectUploadAction] at hpb
    · have hall := List.all_eq_true.mp (upload_direct_no_daemon inp env w h)
      rcases mem_runUpload_trace inp env w failU a ha with rfl | h1 | ⟨m, rfl⟩ | rfl
      · simp [isDaemonUploadAction] at hpa
      · have hfalse := hall a h1
        rw [hpa] at hfalse
        simp at hfalse
      · simp [isDaemonUploadAction] at hpa
      · simp [isDaemonUploadAction] at hpa

/-- Without failures, setup executes exactly its program-order action list. -/
theorem setupTrace_noFail (inp : Inputs) (w : World) :
    setupTrace inp w = (setupSteps inp w).map actionOf := by
  unfold setupTrace runSetup
  rw [runSteps_noFail]
  rfl

/-- C3: for a non-empty extraPullNames input, the successful setup trace
splits as a prefix, the extra-caches group containing exactly one use call
per comma-separated element in input order with surrounding whitespace
trimmed, and a suffix; under any failure oracle the executed trace is a
prefix of that list, and when a call fails it is the last executed action,
so the remaining registrations of the loop are aborted. -/
theorem C3_extra_caches_once_in_order_trimmed_abort (inp : Inputs) (w : World)
    (h : inp.extraPullNames ≠ "") :
    (setupTrace inp w =
      (setupStepsBeforeExtras inp w).map actionOf ++
        Action.startGroup ("Cachix: using extra caches " ++ inp.extraPullNames) ::
          ((jsSplit ',' inp.extraPullNames).map
            (fun itemName => Action.exec "cachix" ["use", jsTrim itemName])) ++
          Action.endGroup :: (setupStepsAfterExtras inp w).map actionOf) ∧
    (∀ fail, ∃ n,
      (runSteps fail (setupSteps inp w)).trace = (setupTrace inp w).take n) ∧
    (∀ fail m, (runSteps fail (setupSteps inp w)).thrown = some m →
      ∃ a, (runSteps fail (setupSteps inp w)).trace.getLast? = some a ∧ fail a = some m) := by
  refine ⟨?_, fun fail => ?_, fun fail m hm => runSteps_thrown_last fail _ m hm⟩
  · rw [setupTrace_noFail]
    unfold setupSteps extrasSegment
    rw [if_pos h]
    simp [extraUseSteps, List.map_append, List.map_map, Function.comp, actionOf]
  · rw [setupTrace_noFail]
    exact runSteps_trace_take fail (setupSteps inp w)

/-- Concrete inputs: a run with one well-formed and one whitespace-padded
extra cache name plus a trailing comma. -/
def exInputs : Inputs :=
  { name := "my-cache", extraPullNames := " alpha ,beta,", signingKey := "sk",
    authToken := "tok", skipPush := "", pathsToPush := "", pushFilter := "",
    cachixArgs := "", skipAddingSubstituter := "", useDaemon := "",
    installCommand := "nix-env --quiet -j8 -iA cachix -f https://cachix.org/api/v1/install" }

/-- Concrete world for witness runs. -/
def exWorld : World :=
  { cachixOnPath := true, runnerTemp := "/runner/tmp", tmpdir := "/tmp",
    mkdtempSuffix := "Ab12Cd", daemonPid := some 4242,
    cachixPath := "/nix/store/q0-cachix/bin/cachix", home := "/home/runner",
    dirname := "/action/dist/main", pidValue := 4242 }

/-- Witness for C3 at the concrete inputs: hypothesis and conclusion hold. -/
theorem C3_extra_caches_once_in_order_trimmed_abort_witness :
    exInputs.extraPullNames ≠ "" ∧
    setupTrace exInputs exWorld =
      (setupStepsBeforeExtras exInputs exWorld).map actionOf ++
        Action.startGroup ("Cachix: using extra caches " ++ exInputs.extraPullNames) ::
          ((jsSplit ',' exInputs.extraPullNames).map
            (fun itemName => Action.exec "cachix" ["use", jsTrim itemName])) ++
          Action.endGroup :: (setupStepsAfterExtras exInputs exWorld).map actionOf :=
  ⟨by decide, (C3_extra_caches_once_in_order_trimmed_abort exInputs exWorld (by decide)).1⟩

/-- C10: for a non-empty extraPullNames input, any comma-separated segment
that trims to the empty string still produces a registration call with the
empty string as the cache name: empty segments are not filtered out. -/
theorem C10_empty_segment_registered (inp : Inputs) (w : World)
    (h : inp.extraPullNames ≠ "") (seg : String)
    (hseg : seg ∈ jsSplit ',' inp.extraPullNames) (htrim : jsTrim seg = "") :
    Action.exec "cachix" ["use", ""] ∈ setupTrace inp w := by
  have hstep : Step.att (Action.exec "cachix" ["use", ""]) ∈ setupSteps inp w := by
    unfold setupSteps
    refine List.mem_append_left _ (List.mem_append_right _ ?_)
    unfold extrasSegment
    rw [if_pos h]
    refine List.mem_cons_of_mem _ (List.mem_append_left _ ?_)
    rw [← htrim]
    exact List.mem_map_of_mem _ hseg
  rw [setupTrace_noFail]
  exact List.mem_map_of_mem actionOf hstep

/-- Witness for C10: the trailing comma of the concrete input yields an
empty segment, and the trace indeed contains a use call on the empty
string. -/
theorem C10_empty_segment_registered_witness :
    (exInputs.extraPullNames ≠ "" ∧ "" ∈ jsSplit ',' exInputs.extraPullNames ∧
      jsTrim "" = "") ∧
    Action.exec "cachix" ["use", ""] ∈ setupTrace exInputs exWorld :=
  ⟨by decide,
   C10_empty_segment_registered exInputs exWorld (by decide) "" (by decide) (by decide)⟩

/-- A substituter-registration invocation: cachix use with any cache name. -/
def isUseCall (a : Action) : Bool :=
  match a with
  | Action.exec cmd args => cmd == "cachix" && (args.head?.getD "") == "use"
  | _ => false

/-- The authentication-registration invocation: cachix authtoken. -/
def isAuthCall (a : Action) : Bool :=
  match a with
  | Action.exec cmd args => cmd == "cachix" && (args.head?.getD "") == "authtoken"
  | _ => false

/-- Scanning from the start of a trace, an authtoken call occurs strictly
before the first use call (vacuously true when no use call occurs). -/
def authPrecedesUse : List Action → Bool
  | [] => true
  | a :: rest =>
    if isUseCall a then false
    else if isAuthCall a then true
    else authPrecedesUse rest

/-- Truncating a trace preserves the auth-before-use property. -/
theorem authPrecedesUse_take (l : List Action) (hl : authPrecedesUse l = true) (n : Nat) :
    authPrecedesUse (l.take n) = true := by
  induction l generalizing n with
  | nil => simp [List.take_nil, authPrecedesUse]
  | cons a rest ih =>
    cases n with
    | zero => simp [authPrecedesUse]
    | succ n =>
      rw [List.take_succ_cons]
      unfold authPrecedesUse at hl ⊢
      by_cases hu : isUseCall a = true
      · rw [if_pos hu] at hl
        exact absurd hl (by simp)
      · rw [if_neg hu] at hl ⊢
        by_cases ha : isAuthCall a = true
        · rw [if_pos ha]
        · rw [if_neg ha] at hl ⊢
          exact ih hl n

/-- A trace without use calls satisfies the auth-before-use property. -/
theorem authPrecedesUse_of_no_use (l : List Action)
    (h : ∀ a ∈ l, isUseCall a = false) : authPrecedesUse l = true := by
  induction l with
  | nil => rfl
  | cons a rest ih =>
    unfold authPrecedesUse
    rw [if_neg (by simp [h a (List.mem_cons_self a rest)])]
    by_cases ha : isAuthCall a = true
    · rw [if_pos ha]
    · rw [if_neg ha]
      exact ih (fun b hb => h b (List.mem_cons_of_mem a hb))

/-- Appending actions that are not use calls preserves the auth-before-use
property. -/
theorem authPrecedesUse_append (l1 l2 : List Action) (h1 : authPrecedesUse l1 = true)
    (h2 : ∀ a ∈ l2, isUseCall a = false) : authPrecedesUse (l1 ++ l2) = true := by
  induction l1 with
  | nil => simpa using authPrecedesUse_of_no_use l2 h2
  | cons a rest ih =>
    rw [List.cons_append]
    unfold authPrecedesUse at h1 ⊢
    by_cases hu : isUseCall a = true
    · rw [if_pos hu] at h1
      exact absurd h1 (by simp)
    · rw [if_neg hu] at h1 ⊢
      by_cases ha : isAuthCall a = true
      · rw [if_pos ha]
      · rw [if_neg ha] at h1 ⊢
        exact ih h1

/-- With a non-empty auth token, the full program-order action list of setup
issues the authtoken call before any use call. -/
theorem setup_auth_precedes_use_full (inp : Inputs) (w : World)
    (hAuth : inp.authToken ≠ "") :
    authPrecedesUse ((setupSteps inp w).map actionOf) = true := by
  unfold setupSteps setupStepsBeforeExtras
  rw [if_pos hAuth]
  by_cases h1 : w.cachixOnPath <;>
    simp [h1, authPrecedesUse, isUseCall, isAuthCall, actionOf, List.map_append]

/-- C8: whenever a non-empty auth token is supplied, the cachix authtoken
invocation is issued before any cachix use invocation in the setup trace —
under every failure oracle, including runs that abort early (the setFailed
annotation of the catch block is not a use call). -/
theorem C8_authtoken_before_any_use (inp : Inputs) (w : World)
    (fail : Action → Option String) (hAuth : inp.authToken ≠ "") :
    authPrecedesUse ((runSetup inp w fail).trace) = true := by
  have hbody : authPrecedesUse ((runSteps fail (setupSteps inp w)).trace) = true := by
    obtain ⟨n, hn⟩ := runSteps_trace_take fail (setupSteps inp w)
    rw [hn]
    exact authPrecedesUse_take _ (setup_auth_precedes_use_full inp w hAuth) n
  unfold runSetup
  show authPrecedesUse (catchTrace (runSteps fail (setupSteps inp w))) = true
  unfold catchTrace
  cases h : (runSteps fail (setupSteps inp w)).thrown with
  | none => exact hbody
  | some m =>
    exact authPrecedesUse_append _ _ hbody (by intro a ha; simp at ha; simp [ha, isUseCall])

/-- Witness for C8: at the concrete inputs the auth token is non-empty and
the successful trace satisfies the order property. -/
theorem C8_authtoken_before_any_use_witness :
    exInputs.authToken ≠ "" ∧ authPrecedesUse ((runSetup exInputs exWorld noFail).trace) = true :=
  ⟨by decide, C8_authtoken_before_any_use exInputs exWorld noFail (by decide)⟩

/-- C9: the three boolean-like flags are interpreted by strict string
equality with the string true.  Every other value behaves exactly as the
value false: the setup and upload step lists coincide with those of the
value false, the direct-push snapshot is taken (direct-push mode selected),
and the primary substituter registration is not skipped. -/
theorem C9_flags_strict_equality_with_true (v : String) (hv : v ≠ "true") (inp : Inputs)
    (env : String → Option String) (w : World) :
    (setupSteps { inp with useDaemon := v, skipAddingSubstituter := v } w =
      setupSteps { inp with useDaemon := "false", skipAddingSubstituter := "false" } w) ∧
    (uploadInnerSteps { inp with skipPush := v, useDaemon := v } env w =
      uploadInnerSteps { inp with skipPush := "false", useDaemon := "false" } env w) ∧
    (Step.att (Action.exec "sh"
        ["-c", w.dirname ++ "/list-nix-store.sh > /tmp/store-path-pre-build"])
      ∈ setupSteps { inp with useDaemon := v } w) ∧
    (Step.att (Action.exec "cachix" ["use", inp.name])
      ∈ setupSteps { inp with skipAddingSubstituter := v } w) := by
  refine ⟨?_, ?_, ?_, ?_⟩
  · simp [setupSteps, setupStepsBeforeExtras, extrasSegment, setupStepsAfterExtras, hv]
  · simp [uploadInnerSteps, hv]
  · simp [setupSteps, setupStepsBeforeExtras, extrasSegment, setupStepsAfterExtras, hv,
      List.mem_append]
  · simp [setupSteps, setupStepsBeforeExtras, extrasSegment, setupStepsAfterExtras, hv,
      List.mem_append]

/-- Witness for C9 at the value TRUE: not the string true, and the
direct-push snapshot is selected while the substituter registration
still happens exactly as with false. -/
theorem C9_flags_strict_equality_with_true_witness :
    ("TRUE" : String) ≠ "true" ∧
    (Step.att (Action.exec "sh"
        ["-c", exWorld.dirname ++ "/list-nix-store.sh > /tmp/store-path-pre-build"])
      ∈ setupSteps { exInputs with useDaemon := "TRUE" } exWorld) ∧
    setupSteps { exInputs with useDaemon := "TRUE", skipAddingSubstituter := "TRUE" } exWorld =
      setupSteps { exInputs with useDaemon := "false", skipAddingSubstituter := "false" } exWorld :=
  ⟨by decide,
   (C9_flags_strict_equality_with_true "TRUE" (by decide) exInputs (fun _ => none) exWorld).2.2.1,
   (C9_flags_strict_equality_with_true "TRUE" (by decide) exInputs (fun _ => none) exWorld).1⟩

/-- In daemon mode, every daemon-branch step action reaches the
successful setup trace. -/
theorem mem_setupTrace_of_mem_daemon (inp : Inputs) (w : World) (h : inp.useDaemon = "true")
    (s : Step) (hs : s ∈ daemonSetupSteps inp w) : actionOf s ∈ setupTrace inp w := by
  rw [setupTrace_noFail]
  refine List.mem_map_of_mem actionOf ?_
  unfold setupSteps
  refine List.mem_append_right _ ?_
  unfold setupStepsAfterExtras
  rw [if_pos h]
  exact List.mem_append_right _ hs

/-- C5: in daemon mode, the socket path passed via the --socket argument of
the spawned daemon subprocess and the socket path written into the
generated hook script are the same daemonDir/daemon.sock string, and the
cache name written into the hook script is the cache name input of the
run. -/
theorem C5_hook_socket_and_name_match_spawn (inp : Inputs) (w : World)
    (h : inp.useDaemon = "true") :
    (Action.spawnDetached "cachix"
        ["daemon", "run", "--socket", daemonDirOf w ++ "/daemon.sock"] ∈ setupTrace inp w) ∧
    (Action.writeFile (daemonDirOf w ++ "/cachix-post-build-hook.sh")
        (postBuildHookScript w.cachixPath (daemonDirOf w) inp.name) ∈ setupTrace inp w) ∧
    (∃ x y, postBuildHookScript w.cachixPath (daemonDirOf w) inp.name =
        x ++ ("--socket " ++ (daemonDirOf w ++ "/daemon.sock")) ++ y) ∧
    (∃ x y, postBuildHookScript w.cachixPath (daemonDirOf w) inp.name =
        x ++ (" " ++ inp.name ++ " $OUT_PATHS") ++ y) := by
  refine ⟨?_, ?_, ?_, ?_⟩
  · exact mem_setupTrace_of_mem_daemon inp w h
      (Step.emit (Action.spawnDetached "cachix"
        ["daemon", "run", "--socket", daemonDirOf w ++ "/daemon.sock"]))
      (by simp [daemonSetupSteps, List.mem_append])
  · exact mem_setupTrace_of_mem_daemon inp w h
      (Step.att (Action.writeFile (daemonDirOf w ++ "/cachix-post-build-hook.sh")
        (postBuildHookScript w.cachixPath (daemonDirOf w) inp.name)))
      (by simp [daemonSetupSteps, List.mem_append])
  · refine ⟨"\n      #!/bin/sh\n\n      set -eux\n      set -f #disable globbing\n      export IFS=\x27\x27\n\n      exec "
        ++ w.cachixPath ++ " daemon push         ",
      "         " ++ inp.name ++ " $OUT_PATHS\n     ", ?_⟩
    unfold postBuildHookScript
    apply String.ext
    simp [String.data_append]
  · refine ⟨"\n      #!/bin/sh\n\n      set -eux\n      set -f #disable globbing\n      export IFS=\x27\x27\n\n      exec "
        ++ w.cachixPath ++ " daemon push         --socket " ++ daemonDirOf w
        ++ "/daemon.sock        ",
      "\n     ", ?_⟩
    unfold postBuildHookScript
    apply String.ext
    simp [String.data_append]

/-- Concrete daemon-mode inputs for witness runs. -/
def exInputsDaemon : Inputs := { exInputs with useDaemon := "true" }

/-- Witness for C5: daemon mode holds at the concrete inputs, and the spawn
action with the same socket string as the hook script is in the trace. -/
theorem C5_hook_socket_and_name_match_spawn_witness :
    exInputsDaemon.useDaemon = "true" ∧
    (Action.spawnDetached "cachix"
        ["daemon", "run", "--socket", daemonDirOf exWorld ++ "/daemon.sock"]
      ∈ setupTrace exInputsDaemon exWorld) ∧
    (∃ x y, postBuildHookScript exWorld.cachixPath (daemonDirOf exWorld) exInputsDaemon.name =
        x ++ ("--socket " ++ (daemonDirOf exWorld ++ "/daemon.sock")) ++ y) :=
  ⟨by decide,
   (C5_hook_socket_and_name_match_spawn exInputsDaemon exWorld (by decide)).1,
   (C5_hook_socket_and_name_match_spawn exInputsDaemon exWorld (by decide)).2.2.1⟩

/-- Without failures, upload executes the group markers around its
program-order action list. -/
theorem uploadTrace_noFail (inp : Inputs) (env : String → Option String) (w : World) :
    uploadTrace inp env w =
      Action.startGroup "Cachix: push" ::
        (uploadInnerSteps inp env w).map actionOf ++ [Action.endGroup] := by
  unfold uploadTrace runUpload
  rw [runSteps_noFail]
  rfl

/-- C7: the daemon directory exported during setup is the unique value
exported under the CACHIX_DAEMON_DIR name, and when the upload environment
carries that binding under the same name — as both phases use the one
ENV_CACHIX_DAEMON_DIR constant — the upload step reads the pid file and
tails the log file of exactly that directory. -/
theorem C7_daemon_dir_handoff (inp : Inputs) (w : World) (env : String → Option String)
    (hD : inp.useDaemon = "true") (hPush : inp.skipPush ≠ "true")
    (hCred : inp.signingKey ≠ "" ∨ inp.authToken ≠ "")
    (hEnv : env ENV_CACHIX_DAEMON_DIR = some (daemonDirOf w)) :
    (Action.exportVariable ENV_CACHIX_DAEMON_DIR (daemonDirOf w) ∈ setupTrace inp w) ∧
    (∀ v, Action.exportVariable ENV_CACHIX_DAEMON_DIR v ∈ setupTrace inp w →
      v = daemonDirOf w) ∧
    (Action.readFile (daemonDirOf w ++ "/daemon.pid") ∈ uploadTrace inp env w) ∧
    (Action.tailStart (daemonDirOf w ++ "/daemon.log") ∈ uploadTrace inp env w) := by
  have hdir : uploadDaemonDir env = daemonDirOf w := by
    unfold uploadDaemonDir
    rw [hEnv]
  refine ⟨?_, ?_, ?_, ?_⟩
  · exact mem_setupTrace_of_mem_daemon inp w hD
      (Step.emit (Action.exportVariable ENV_CACHIX_DAEMON_DIR (daemonDirOf w)))
      (by simp [daemonSetupSteps, List.mem_append])
  · intro v hv
    rw [setupTrace_noFail] at hv
    unfold setupSteps setupStepsBeforeExtras extrasSegment setupStepsAfterExtras
      daemonSetupSteps extraUseSteps at hv
    rw [if_pos hD] at hv
    rcases hw : w.daemonPid with _ | pid <;> rw [hw] at hv <;>
      split_ifs at hv <;>
        simp only [List.map_append, List.map_cons, List.map_map, List.map_nil,
          List.mem_append, List.mem_cons, List.mem_map, List.not_mem_nil,
          Function.comp, actionOf, ENV_CACHIX_DAEMON_DIR] at hv <;>
          rcases hv with hv | hv <;> simp_all
  · rw [uploadTrace_noFail]
    unfold uploadInnerSteps
    rw [if_neg hPush, if_pos hCred, if_pos hD, hdir]
    simp [actionOf, List.mem_append]
  · rw [uploadTrace_noFail]
    unfold uploadInnerSteps
    rw [if_neg hPush, if_pos hCred, if_pos hD, hdir]
    simp [actionOf, List.mem_append]

/-- The upload environment of the concrete witness run: it carries exactly
the binding setup exported. -/
def exEnv : String → Option String :=
  fun k => if k = ENV_CACHIX_DAEMON_DIR then some (daemonDirOf exWorld) else none

/-- Witness for C7 at the concrete daemon-mode inputs: all hypotheses hold
and upload reads the pid file of the exported daemon directory. -/
theorem C7_daemon_dir_handoff_witness :
    (exInputsDaemon.useDaemon = "true" ∧ exInputsDaemon.skipPush ≠ "true" ∧
      (exInputsDaemon.signingKey ≠ "" ∨ exInputsDaemon.authToken ≠ "") ∧
      exEnv ENV_CACHIX_DAEMON_DIR = some (daemonDirOf exWorld)) ∧
    (Action.exportVariable ENV_CACHIX_DAEMON_DIR (daemonDirOf exWorld)
        ∈ setupTrace exInputsDaemon exWorld) ∧
    (Action.readFile (daemonDirOf exWorld ++ "/daemon.pid")
        ∈ uploadTrace exInputsDaemon exEnv exWorld) :=
  ⟨⟨by decide, by decide, Or.inl (by decide), by decide⟩,
   (C7_daemon_dir_handoff exInputsDaemon exWorld exEnv (by decide) (by decide)
      (Or.inl (by decide)) (by decide)).1,
   (C7_daemon_dir_handoff exInputsDaemon exWorld exEnv (by decide) (by decide)
      (Or.inl (by decide)) (by decide)).2.2.1⟩

/-- Does the pattern occur at the start of the list. -/
def startsWithChars : List Char → List Char → Bool
  | [], _ => true
  | _ :: _, [] => false
  | p :: ps, c :: cs => p == c && startsWithChars ps cs

/-- Parse a shell line of the form export IFS=(single-quoted value) and
return the quoted value. -/
def ifsOfLine (line : String) : Option String :=
  let t := (jsTrim line).data
  if startsWithChars ("export IFS=\x27").data t && (t.getLast? == some '\x27')
      && decide (13 ≤ t.length) then
    some (String.mk ((t.drop 12).dropLast))
  else none

/-- The IFS value the generated script exports: the first export IFS line
of the script, parsed. -/
def scriptIFS (script : String) : Option String :=
  ((jsSplit '\n' script).filterMap ifsOfLine).head?

/-- Whether the script contains the set -f line disabling shell globbing. -/
def scriptSetsNoGlob (script : String) : Bool :=
  (jsSplit '\n' script).any (fun l => jsTrim l == "set -f #disable globbing")

/-- Modelled POSIX field splitting of an unquoted expansion under a given
IFS value: with the empty IFS no splitting happens at all and the expansion
stays one word; with a whitespace IFS the expansion splits at those
characters and empty fields are discarded. -/
def splitFieldsAux (isSep : Char → Bool) : List Char → List Char → List (List Char)
  | [], acc => [acc.reverse]
  | ch :: cs, acc =>
    if isSep ch then acc.reverse :: splitFieldsAux isSep cs []
    else splitFieldsAux isSep cs (ch :: acc)

/-- Modelled POSIX field splitting, see splitFieldsAux. -/
def fieldSplit (ifs : String) (s : String) : List String :=
  if ifs = "" then [s]
  else ((splitFieldsAux (fun ch => ifs.data.contains ch) s.data []).map
    (fun cs => String.mk cs)).filter (fun t => !(t == ""))

/-- C2: the claim fails on the code.  The generated hook script does
disable globbing (set -f), but it exports the EMPTY string as IFS, which
disables field splitting on every expansion including the unquoted
OUT_PATHS one: two space-separated store paths reach the daemon push
subcommand as a single argument.  The spec-intended splitting behaviour
would require IFS to be a single space. -/
theorem C2_hook_script_exports_empty_ifs_so_out_paths_not_split :
    scriptIFS (postBuildHookScript "/usr/bin/cachix" "/tmp/cachix-daemon-x" "my-cache") =
      some "" ∧
    scriptSetsNoGlob (postBuildHookScript "/usr/bin/cachix" "/tmp/cachix-daemon-x" "my-cache") =
      true ∧
    fieldSplit "" "/nix/store/a1-first /nix/store/b2-second" =
      ["/nix/store/a1-first /nix/store/b2-second"] ∧
    fieldSplit " " "/nix/store/a1-first /nix/store/b2-second" =
      ["/nix/store/a1-first", "/nix/store/b2-second"] :=
  ⟨by decide, by decide, by decide, by decide⟩

/-- Failure oracle for the C4 run: every effect succeeds except the chmod
of the generated hook script, whose promise rejects. -/
def chmodRejects : Action → Option String :=
  fun a =>
    match a with
    | Action.chmod _ _ => some "Error: EPERM: operation not permitted, chmod"
    | _ => none

/-- C4: the claim fails on the code.  The fs.chmod call on the generated
hook script (line 105 of main.ts) is not awaited, so its rejection is not
caught by the try/catch of setup: in a daemon-mode run in which only that
chmod rejects, setup produces no setFailed annotation and the rejection
escapes as an unhandled promise rejection (a process crash), while the
same run with no failing effect completes normally. -/
theorem C4_unawaited_chmod_rejection_escapes :
    (runSetup exInputsDaemon exWorld chmodRejects).outcome =
      Outcome.crash "Error: EPERM: operation not permitted, chmod" ∧
    (runSetup exInputsDaemon exWorld chmodRejects).trace.any isSetFailed = false ∧
    (runSetup exInputsDaemon exWorld noFail).outcome = Outcome.normal :=
  ⟨by decide, by decide, by decide⟩

end Cachix
